import Mathlib

/-!
Verification development for `api/generate-images.ts`.

The file shallowly embeds the rendering core of the service: two canvas
render functions (`generateAnimalImage`, `generateBrainImage`), their shared
text-drawing helper (`drawTextWithShadow`), the max-finding label-selection
loop, the hard-coded position/style tables, and the request handler that
joins both renders with `Promise.all`.

Modelling choices:
* A JavaScript runtime object holding a dataset is an association list
  `Entries = List (String × Int)`; `Object.entries` iterates own keys in
  insertion order, which for objects built from the `AnimalData` /
  `BrainData` interfaces is the declared field order.
* The 2D canvas context is a record of the style/shadow fields the source
  touches plus the list of drawing commands issued so far; `toDataURL` is a
  pure function of the canvas dimensions and that command list, so two
  encodings agree exactly when the same commands were issued on surfaces of
  the same size.
* `loadImage` is modelled by an `Option BaseImage` argument (`none` is a
  decode/fetch failure); `try`/`catch` wrapping becomes an `Except String`
  result whose error message carries the per-render message of the source.
* A lookup `positions[name]` for a name absent from the table yields
  `undefined` in JavaScript, and destructuring `const { x, y }` of it
  throws a `TypeError`; this is modelled by the `drawLoop` returning
  `.error destructureFail`.
-/

namespace GenerateImages

/-- A decoded raster base image; only its pixel dimensions are observable to
the rendering core (`img.width`, `img.height` in the source). -/
structure BaseImage where
  width : Nat
  height : Nat
deriving DecidableEq, Repr

/-- An (x, y) pixel coordinate, as in the hard-coded `positions` tables. -/
structure Pos where
  x : Int
  y : Int
deriving DecidableEq, Repr

/-- A dataset as the runtime sees it: `Object.entries(data)` in insertion
order.  TypeScript types are erased, so the list may be missing required
names or contain unknown ones. -/
abbrev Entries := List (String × Int)

/-- A drawing command issued on the 2D context.  `fillText` records the
context state that affects the drawn pixels at the moment of the call. -/
inductive DrawOp where
  | drawImage (img : BaseImage) (dx dy : Int)
  | fillText (text : String) (x y : Int)
      (font fillStyle textAlign textBaseline : String)
      (shadowColor : String) (shadowBlur shadowOffsetX shadowOffsetY : Int)
deriving DecidableEq, Repr

/-- The mutable state of a `CanvasRenderingContext2D`: the style fields the
source assigns, and the list of commands issued so far. -/
structure Ctx where
  font : String
  fillStyle : String
  textAlign : String
  textBaseline : String
  shadowColor : String
  shadowBlur : Int
  shadowOffsetX : Int
  shadowOffsetY : Int
  ops : List DrawOp
deriving DecidableEq, Repr

/-- A fresh context, with the HTML-canvas default values of the fields. -/
def Ctx.initial : Ctx :=
  { font := "10px sans-serif"
    fillStyle := "#000000"
    textAlign := "start"
    textBaseline := "alphabetic"
    shadowColor := "rgba(0, 0, 0, 0)"
    shadowBlur := 0
    shadowOffsetX := 0
    shadowOffsetY := 0
    ops := [] }

/-- Models `ctx.drawImage(img, dx, dy)`. -/
def Ctx.drawImage (ctx : Ctx) (img : BaseImage) (dx dy : Int) : Ctx :=
  { ctx with ops := ctx.ops ++ [DrawOp.drawImage img dx dy] }

/-- Models `ctx.fillText(text, x, y)`: records the command together with the
current style and shadow state. -/
def Ctx.fillText (ctx : Ctx) (text : String) (x y : Int) : Ctx :=
  { ctx with ops := ctx.ops ++
      [DrawOp.fillText text x y ctx.font ctx.fillStyle ctx.textAlign
        ctx.textBaseline ctx.shadowColor ctx.shadowBlur ctx.shadowOffsetX
        ctx.shadowOffsetY] }

/-- Models `drawTextWithShadow` from the source: set font/fill/alignment, set the
shadow, draw the text, then reset `shadowColor` and `shadowBlur`. -/
def drawTextWithShadow (ctx : Ctx) (text : String) (x y : Int)
    (font fillStyle textAlign textBaseline : String) : Ctx :=
  let ctx1 := { ctx with
    font := font
    fillStyle := fillStyle
    textAlign := textAlign
    textBaseline := textBaseline }
  let ctx2 := { ctx1 with
    shadowColor := "rgba(0, 0, 0, 0.8)"
    shadowBlur := 10
    shadowOffsetX := 0
    shadowOffsetY := 0 }
  let ctx3 := ctx2.fillText text x y
  { ctx3 with shadowColor := "transparent", shadowBlur := 0 }

/-- Models one iteration of the max-finding loop: `if (percentage > maxPercentage)
{ maxPercentage = percentage; highestName = name; }`. -/
def findHighestStep (acc : Option String × Int) (e : String × Int) :
    Option String × Int :=
  if e.2 > acc.2 then (some e.1, e.2) else acc

/-- The max-finding loop run from an arbitrary accumulator. -/
def findHighestFrom (acc : Option String × Int) (es : Entries) :
    Option String × Int :=
  es.foldl findHighestStep acc

/-- Models the label-selection loop of the source: `highestName = null`,
`maxPercentage = -1`, then fold `findHighestStep` over the entries. -/
def findHighest (es : Entries) : Option String × Int :=
  findHighestFrom (none, -1) es

/-- Models the constant `fontName` of the source (a quoted family name). -/
def fontName : String := "\"Arial Bold\""

/-- Models the constant `normalFontSize = 36` of the source. -/
def normalFontSize : Int := 36

/-- Models the constant `highestFontSize = 40` of the source. -/
def highestFontSize : Int := 40

/-- Models the constant `normalColor` of the source: white. -/
def normalColor : String := "#FFFFFF"

/-- Models the constant `highestColor` of the source: yellow. -/
def highestColor : String := "#FFFF00"

/-- The hard-coded animal position table. -/
def animalPositions : String → Option Pos
  | "lobo" => some ⟨250, 680⟩
  | "aguia" => some ⟨750, 680⟩
  | "tubarao" => some ⟨250, 970⟩
  | "gato" => some ⟨750, 970⟩
  | _ => none

/-- The hard-coded brain position table. -/
def brainPositions : String → Option Pos
  | "razao" => some ⟨270, 480⟩
  | "emocao" => some ⟨740, 480⟩
  | "pensante" => some ⟨500, 310⟩
  | "atuante" => some ⟨500, 710⟩
  | _ => none

/-- The modelled `TypeError` message thrown by destructuring
`positions[name]` when the table has no entry for `name`. -/
def destructureFail : String :=
  "Cannot destructure x of positions[name] as it is undefined"

/-- The modelled message of a failed `loadImage` call. -/
def imageLoadFail : String := "unsupported image type"

/-- The per-entry drawing loop shared verbatim (up to the positions table
and the selected name) by both render functions: pick the style from
`isHighest`, format the text, look up the position, draw. -/
def drawLoop (positions : String → Option Pos) (highest : Option String) :
    Ctx → Entries → Except String Ctx
  | ctx, [] => .ok ctx
  | ctx, (name, percentage) :: rest =>
    let isHighest : Bool := some name == highest
    let fontSize := if isHighest then highestFontSize else normalFontSize
    let color := if isHighest then highestColor else normalColor
    let font := toString fontSize ++ "px " ++ fontName
    let text := toString percentage ++ "%"
    match positions name with
    | none => .error destructureFail
    | some p =>
      drawLoop positions highest
        (drawTextWithShadow ctx text p.x p.y font color "center" "middle")
        rest

/-- Models the encoded result of `canvas.toDataURL` with format `image/png`: a pure function
of the surface dimensions and the commands drawn onto it. -/
structure Encoded where
  width : Nat
  height : Nat
  ops : List DrawOp
  format : String
deriving DecidableEq, Repr

/-- Models `canvas.toDataURL` applied to the drawn canvas. -/
def toDataURL (canvas : BaseImage) (ctx : Ctx) : Encoded :=
  { width := canvas.width, height := canvas.height, ops := ctx.ops,
    format := "image/png" }

/-- The body of the `try` block of `generateAnimalImage`: load the image,
create a canvas of its dimensions, blit the image at (0, 0), run the
max-finding loop, draw the label of each entry. -/
def generateAnimalImageBody (baseImage : Option BaseImage) (data : Entries) :
    Except String Encoded :=
  match baseImage with
  | none => .error imageLoadFail
  | some img =>
    let canvas : BaseImage := ⟨img.width, img.height⟩
    let ctx := Ctx.initial
    let ctx := ctx.drawImage img 0 0
    let animalEntries := data
    let highest := findHighest animalEntries
    match drawLoop animalPositions highest.1 ctx animalEntries with
    | .error e => .error e
    | .ok ctx => .ok (toDataURL canvas ctx)

/-- Models `generateAnimalImage`: the `try` body with its `catch` wrapper, which
re-throws any error with the animal-render context prefix. -/
def generateAnimalImage (baseImage : Option BaseImage) (data : Entries) :
    Except String Encoded :=
  match generateAnimalImageBody baseImage data with
  | .ok enc => .ok enc
  | .error msg => .error ("Error during animal image processing: " ++ msg)

/-- The body of the `try` block of `generateBrainImage`; identical to the
animal one except for the positions table. -/
def generateBrainImageBody (baseImage : Option BaseImage) (data : Entries) :
    Except String Encoded :=
  match baseImage with
  | none => .error imageLoadFail
  | some img =>
    let canvas : BaseImage := ⟨img.width, img.height⟩
    let ctx := Ctx.initial
    let ctx := ctx.drawImage img 0 0
    let brainEntries := data
    let highest := findHighest brainEntries
    match drawLoop brainPositions highest.1 ctx brainEntries with
    | .error e => .error e
    | .ok ctx => .ok (toDataURL canvas ctx)

/-- Models `generateBrainImage`: the `try` body with its `catch` wrapper. -/
def generateBrainImage (baseImage : Option BaseImage) (data : Entries) :
    Except String Encoded :=
  match generateBrainImageBody baseImage data with
  | .ok enc => .ok enc
  | .error msg => .error ("Error during brain image processing: " ++ msg)

/-- A well-typed `AnimalData` object (interface field order:
lobo, aguia, tubarao, gato). -/
structure AnimalData where
  lobo : Int
  aguia : Int
  tubarao : Int
  gato : Int
deriving DecidableEq, Repr

/-- Models `Object.entries` of an `AnimalData` object: its fields in declared
(insertion) order. -/
def AnimalData.entries (d : AnimalData) : Entries :=
  [("lobo", d.lobo), ("aguia", d.aguia), ("tubarao", d.tubarao),
   ("gato", d.gato)]

/-- A well-typed `BrainData` object (interface field order:
pensante, atuante, razao, emocao). -/
structure BrainData where
  pensante : Int
  atuante : Int
  razao : Int
  emocao : Int
deriving DecidableEq, Repr

/-- Models `Object.entries` of a `BrainData` object: its fields in declared
(insertion) order. -/
def BrainData.entries (d : BrainData) : Entries :=
  [("pensante", d.pensante), ("atuante", d.atuante), ("razao", d.razao),
   ("emocao", d.emocao)]

/-- An incoming request: its method and the two optional body fields
(`none` models an absent or falsy field, which the basic
validation of the handler rejects). -/
structure Req where
  method : String
  animalData : Option Entries
  brainData : Option Entries

/-- The response the handler sends. -/
inductive Response where
  | methodNotAllowed : Response
  | badRequest : Response
  | success (animalImage brainImage : Encoded) : Response
  | failure (details : String) : Response
deriving DecidableEq, Repr

/-- The Vercel handler: method check, basic body validation, then
`Promise.all` over both renders; any rejection is caught and becomes a
500 response carrying the error message, with both images discarded. -/
def handler (animalBase brainBase : Option BaseImage) (req : Req) :
    Response :=
  if req.method ≠ "POST" then .methodNotAllowed
  else
    match req.animalData, req.brainData with
    | some animalData, some brainData =>
      match generateAnimalImage animalBase animalData,
            generateBrainImage brainBase brainData with
      | .ok a, .ok b => .success a b
      | .error e, _ => .failure e
      | .ok _, .error e => .failure e
    | _, _ => .badRequest

/-- The label command the loop issues for one entry, given the selected
name (meaningful when the positions table has the entry at hand). -/
def labelOp (positions : String → Option Pos) (highest : Option String)
    (e : String × Int) : DrawOp :=
  let isHighest : Bool := some e.1 == highest
  let fontSize := if isHighest then highestFontSize else normalFontSize
  let color := if isHighest then highestColor else normalColor
  let p := (positions e.1).getD ⟨0, 0⟩
  DrawOp.fillText (toString e.2 ++ "%") p.x p.y
    (toString fontSize ++ "px " ++ fontName) color "center" "middle"
    "rgba(0, 0, 0, 0.8)" 10 0 0

/-! Style predicates over drawing commands. -/

/-- A command drawn in the emphasized style: font size 40 and yellow. -/
def isEmph : DrawOp → Bool
  | .fillText _ _ _ font fill _ _ _ _ _ _ =>
      font == (toString highestFontSize ++ "px " ++ fontName) &&
        fill == highestColor
  | _ => false

/-- A command drawn in the normal style: font size 36 and white. -/
def isNormalLabel : DrawOp → Bool
  | .fillText _ _ _ font fill _ _ _ _ _ _ =>
      font == (toString normalFontSize ++ "px " ++ fontName) &&
        fill == normalColor
  | _ => false

/-- A concrete successful animal render (scenario A dataset on a
1080 × 1350 base image), used to exhibit dimension preservation on a
concrete input. -/
def encScenarioA : Encoded :=
  match generateAnimalImage (some ⟨1080, 1350⟩)
      [("lobo", 40), ("aguia", 55), ("tubarao", 55), ("gato", 10)] with
  | .ok e => e
  | .error _ => ⟨0, 0, [], ""⟩

/-! Basic equations and invariants of the max-finding loop. -/

@[simp]
theorem findHighestFrom_nil (acc : Option String × Int) :
    findHighestFrom acc [] = acc := rfl

theorem findHighestFrom_cons (acc : Option String × Int) (e : String × Int)
    (es : Entries) :
    findHighestFrom acc (e :: es) = findHighestFrom (findHighestStep acc e) es :=
  rfl

theorem findHighestFrom_append (acc : Option String × Int) (l l' : Entries) :
    findHighestFrom acc (l ++ l') = findHighestFrom (findHighestFrom acc l) l' := by
  simp [findHighestFrom]

/-- The running maximum never decreases. -/
theorem le_findHighestFrom_snd (es : Entries) :
    ∀ acc : Option String × Int, acc.2 ≤ (findHighestFrom acc es).2 := by
  induction es with
  | nil => intro acc; exact le_refl _
  | cons e es ih =>
    intro acc
    rw [findHighestFrom_cons]
    refine le_trans ?_ (ih _)
    unfold findHighestStep
    split
    · exact le_of_lt (by assumption)
    · exact le_refl _

/-- The running maximum ends at least as high as every visited value. -/
theorem mem_le_findHighestFrom (es : Entries) :
    ∀ (acc : Option String × Int) (e : String × Int), e ∈ es →
      e.2 ≤ (findHighestFrom acc es).2 := by
  induction es with
  | nil => intro _ e he; cases he
  | cons a es ih =>
    intro acc e he
    rw [findHighestFrom_cons]
    rcases List.mem_cons.mp he with rfl | h
    · refine le_trans ?_ (le_findHighestFrom_snd _ _)
      unfold findHighestStep
      split
      · exact le_refl _
      · exact le_of_not_lt (by assumption)
    · exact ih _ e h

/-- When no visited value beats the accumulator, nothing is replaced. -/
theorem findHighestFrom_of_le (es : Entries) :
    ∀ acc : Option String × Int, (∀ e ∈ es, e.2 ≤ acc.2) →
      findHighestFrom acc es = acc := by
  induction es with
  | nil => intro _ _; rfl
  | cons a es ih =>
    intro acc hall
    rw [findHighestFrom_cons]
    have ha : ¬ (a.2 > acc.2) := not_lt.mpr (hall a (by simp))
    have hs : findHighestStep acc a = acc := by
      unfold findHighestStep
      exact if_neg ha
    rw [hs]
    exact ih acc (fun e he => hall e (by simp [he]))

/-- The loop either keeps its accumulator or selects some visited entry,
recording exactly the name and value of that entry. -/
theorem findHighestFrom_eq_or_mem (es : Entries) :
    ∀ acc : Option String × Int,
      findHighestFrom acc es = acc ∨
        ∃ n, (findHighestFrom acc es).1 = some n ∧
          (n, (findHighestFrom acc es).2) ∈ es := by
  induction es with
  | nil => intro _; exact Or.inl rfl
  | cons a es ih =>
    intro acc
    rw [findHighestFrom_cons]
    by_cases h : a.2 > acc.2
    · have hs : findHighestStep acc a = (some a.1, a.2) := by
        unfold findHighestStep
        exact if_pos h
      rw [hs]
      rcases ih (some a.1, a.2) with heq | ⟨n, h1, h2⟩
      · refine Or.inr ⟨a.1, by rw [heq], ?_⟩
        rw [heq]
        simp
      · exact Or.inr ⟨n, h1, List.mem_cons_of_mem _ h2⟩
    · have hs : findHighestStep acc a = acc := by
        unfold findHighestStep
        exact if_neg h
      rw [hs]
      rcases ih acc with heq | ⟨n, h1, h2⟩
      · exact Or.inl heq
      · exact Or.inr ⟨n, h1, List.mem_cons_of_mem _ h2⟩

/-- A strict upper bound on the accumulator and all visited values bounds
the final running maximum. -/
theorem findHighestFrom_snd_lt (es : Entries) (v : Int) :
    ∀ acc : Option String × Int, acc.2 < v → (∀ e ∈ es, e.2 < v) →
      (findHighestFrom acc es).2 < v := by
  induction es with
  | nil => intro _ hacc _; exact hacc
  | cons a es ih =>
    intro acc hacc hall
    rw [findHighestFrom_cons]
    refine ih _ ?_ (fun e he => hall e (by simp [he]))
    unfold findHighestStep
    split
    · exact hall a (by simp)
    · exact hacc

/-- Soundness of the selector on inputs that beat the sentinel: some name
is selected, it is the name of a visited entry carrying the final maximum,
and that maximum dominates every value in the list. -/
theorem findHighest_spec (es : Entries) (h : ∃ e ∈ es, -1 < e.2) :
    ∃ n, (findHighest es).1 = some n ∧ (n, (findHighest es).2) ∈ es ∧
      ∀ e ∈ es, e.2 ≤ (findHighest es).2 := by
  obtain ⟨e, he, hlt⟩ := h
  rcases findHighestFrom_eq_or_mem es (none, -1) with heq | ⟨n, h1, h2⟩
  · exfalso
    have hle := mem_le_findHighestFrom es (none, -1) e he
    rw [heq] at hle
    exact absurd hle (not_le.mpr hlt)
  · exact ⟨n, h1, h2, fun e' he' => mem_le_findHighestFrom es (none, -1) e' he'⟩

/-- Tie-break: the first entry to attain the final maximum is the selected
one, provided that maximum beats the sentinel. -/
theorem findHighest_first_of_max (pre post : Entries) (n : String) (v : Int)
    (hv : -1 < v) (hpre : ∀ e ∈ pre, e.2 < v) (hpost : ∀ e ∈ post, e.2 ≤ v) :
    (findHighest (pre ++ (n, v) :: post)).1 = some n := by
  show (findHighestFrom (none, -1) (pre ++ (n, v) :: post)).1 = some n
  rw [findHighestFrom_append]
  have h1 : (findHighestFrom (none, -1) pre).2 < v :=
    findHighestFrom_snd_lt pre v (none, -1) hv hpre
  rw [findHighestFrom_cons]
  have h2 : findHighestStep (findHighestFrom (none, -1) pre) (n, v) = (some n, v) := by
    unfold findHighestStep
    exact if_pos h1
  rw [h2, findHighestFrom_of_le post (some n, v) (fun e he => hpost e he)]

/-- All values at or below the sentinel: nothing is ever selected. -/
theorem findHighest_none_of_le_sentinel (es : Entries)
    (h : ∀ e ∈ es, e.2 ≤ -1) : findHighest es = (none, -1) :=
  findHighestFrom_of_le es (none, -1) h

/-! Equations and invariants of the drawing loop. -/

theorem drawLoop_cons_none (positions : String → Option Pos)
    (highest : Option String) (ctx : Ctx) (name : String) (pct : Int)
    (rest : Entries) (hp : positions name = none) :
    drawLoop positions highest ctx ((name, pct) :: rest) =
      .error destructureFail := by
  unfold drawLoop
  rw [hp]

theorem drawLoop_cons_some (positions : String → Option Pos)
    (highest : Option String) (ctx : Ctx) (name : String) (pct : Int)
    (rest : Entries) (p : Pos) (hp : positions name = some p) :
    drawLoop positions highest ctx ((name, pct) :: rest) =
      drawLoop positions highest
        (drawTextWithShadow ctx (toString pct ++ "%") p.x p.y
          (toString (if (some name == highest : Bool) then highestFontSize
            else normalFontSize) ++ "px " ++ fontName)
          (if (some name == highest : Bool) then highestColor else normalColor)
          "center" "middle")
        rest := by
  conv_lhs => unfold drawLoop
  rw [hp]

theorem drawTextWithShadow_ops (ctx : Ctx) (text : String) (x y : Int)
    (font fillStyle textAlign textBaseline : String) :
    (drawTextWithShadow ctx text x y font fillStyle textAlign textBaseline).ops =
      ctx.ops ++ [DrawOp.fillText text x y font fillStyle textAlign
        textBaseline "rgba(0, 0, 0, 0.8)" 10 0 0] := rfl

/-- When every entry has a position, the loop succeeds and appends exactly
one label command per entry, in order. -/
theorem drawLoop_ok_of_positions (positions : String → Option Pos)
    (highest : Option String) (es : Entries) :
    ∀ ctx : Ctx, (∀ e ∈ es, (positions e.1).isSome = true) →
      ∃ ctx', drawLoop positions highest ctx es = .ok ctx' ∧
        ctx'.ops = ctx.ops ++ es.map (labelOp positions highest) := by
  induction es with
  | nil => intro ctx _; exact ⟨ctx, rfl, by simp⟩
  | cons a es ih =>
    intro ctx hall
    obtain ⟨name, pct⟩ := a
    obtain ⟨p, hp⟩ := Option.isSome_iff_exists.mp (hall (name, pct) (by simp))
    obtain ⟨ctx', h1, h2⟩ := ih
      (drawTextWithShadow ctx (toString pct ++ "%") p.x p.y
        (toString (if (some name == highest : Bool) then highestFontSize
          else normalFontSize) ++ "px " ++ fontName)
        (if (some name == highest : Bool) then highestColor else normalColor)
        "center" "middle")
      (fun e he => hall e (by simp [he]))
    refine ⟨ctx', ?_, ?_⟩
    · rw [drawLoop_cons_some positions highest ctx name pct es p hp]
      exact h1
    · rw [h2, drawTextWithShadow_ops]
      have hlabel : labelOp positions highest (name, pct) =
          DrawOp.fillText (toString pct ++ "%") p.x p.y
            (toString (if (some name == highest : Bool) then highestFontSize
              else normalFontSize) ++ "px " ++ fontName)
            (if (some name == highest : Bool) then highestColor
              else normalColor)
            "center" "middle" "rgba(0, 0, 0, 0.8)" 10 0 0 := by
        unfold labelOp
        rw [hp]
        rfl
      rw [List.map_cons, hlabel]
      simp

/-- Any entry without a position makes the whole loop fail with the
destructuring error. -/
theorem drawLoop_error_of_missing (positions : String → Option Pos)
    (highest : Option String) (es : Entries) :
    ∀ ctx : Ctx, (∃ e ∈ es, positions e.1 = none) →
      drawLoop positions highest ctx es = .error destructureFail := by
  induction es with
  | nil => rintro ctx ⟨e, he, _⟩; cases he
  | cons a es ih =>
    rintro ctx ⟨e, he, hmiss⟩
    obtain ⟨name, pct⟩ := a
    rcases List.mem_cons.mp he with rfl | hmem
    · exact drawLoop_cons_none positions highest ctx name pct es hmiss
    · cases hp : positions name with
      | none => exact drawLoop_cons_none positions highest ctx name pct es hp
      | some p =>
        rw [drawLoop_cons_some positions highest ctx name pct es p hp]
        exact ih _ ⟨e, hmem, hmiss⟩

/-- A successful loop only appends commands, and every appended command is
the label command of one of the visited entries. -/
theorem drawLoop_ok_ops (positions : String → Option Pos)
    (highest : Option String) (es : Entries) :
    ∀ ctx ctx' : Ctx, drawLoop positions highest ctx es = .ok ctx' →
      ∃ l, ctx'.ops = ctx.ops ++ l ∧
        ∀ op ∈ l, ∃ e ∈ es, op = labelOp positions highest e := by
  induction es with
  | nil =>
    intro ctx ctx' h
    obtain rfl : ctx = ctx' := by
      simpa [drawLoop] using h
    exact ⟨[], by simp, by simp⟩
  | cons a es ih =>
    intro ctx ctx' h
    obtain ⟨name, pct⟩ := a
    cases hp : positions name with
    | none =>
      rw [drawLoop_cons_none positions highest ctx name pct es hp] at h
      cases h
    | some p =>
      rw [drawLoop_cons_some positions highest ctx name pct es p hp] at h
      obtain ⟨l, hl, hall⟩ := ih _ _ h
      rw [drawTextWithShadow_ops] at hl
      refine ⟨labelOp positions highest (name, pct) :: l, ?_, ?_⟩
      · rw [hl]
        have hlabel : labelOp positions highest (name, pct) =
            DrawOp.fillText (toString pct ++ "%") p.x p.y
              (toString (if (some name == highest : Bool) then highestFontSize
                else normalFontSize) ++ "px " ++ fontName)
              (if (some name == highest : Bool) then highestColor
                else normalColor)
              "center" "middle" "rgba(0, 0, 0, 0.8)" 10 0 0 := by
          unfold labelOp
          rw [hp]
          rfl
        rw [hlabel]
        simp
      · intro op hop
        rcases List.mem_cons.mp hop with rfl | hop'
        · exact ⟨(name, pct), by simp, rfl⟩
        · obtain ⟨e, he, heq⟩ := hall op hop'
          exact ⟨e, by simp [he], heq⟩

/-! Characterizations of the two render functions. -/

theorem generateAnimalImageBody_some (img : BaseImage) (es : Entries) :
    generateAnimalImageBody (some img) es =
      match drawLoop animalPositions (findHighest es).1
          (Ctx.initial.drawImage img 0 0) es with
      | .error e => .error e
      | .ok ctx => .ok (toDataURL ⟨img.width, img.height⟩ ctx) := rfl

theorem generateBrainImageBody_some (img : BaseImage) (es : Entries) :
    generateBrainImageBody (some img) es =
      match drawLoop brainPositions (findHighest es).1
          (Ctx.initial.drawImage img 0 0) es with
      | .error e => .error e
      | .ok ctx => .ok (toDataURL ⟨img.width, img.height⟩ ctx) := rfl

theorem generateAnimalImage_ok_iff (b : Option BaseImage) (d : Entries)
    (enc : Encoded) :
    generateAnimalImage b d = .ok enc ↔ generateAnimalImageBody b d = .ok enc := by
  unfold generateAnimalImage
  cases h : generateAnimalImageBody b d <;> simp

theorem generateBrainImage_ok_iff (b : Option BaseImage) (d : Entries)
    (enc : Encoded) :
    generateBrainImage b d = .ok enc ↔ generateBrainImageBody b d = .ok enc := by
  unfold generateBrainImage
  cases h : generateBrainImageBody b d <;> simp

theorem generateAnimalImage_error_wrap (b : Option BaseImage) (d : Entries)
    (msg : String) (h : generateAnimalImageBody b d = .error msg) :
    generateAnimalImage b d =
      .error ("Error during animal image processing: " ++ msg) := by
  unfold generateAnimalImage
  rw [h]

theorem generateBrainImage_error_wrap (b : Option BaseImage) (d : Entries)
    (msg : String) (h : generateBrainImageBody b d = .error msg) :
    generateBrainImage b d =
      .error ("Error during brain image processing: " ++ msg) := by
  unfold generateBrainImage
  rw [h]

/-- With a decodable base image and a position for every present name, the
animal render succeeds and its output is explicit: the base-image blit
followed by one label per entry, on a surface of the base dimensions. -/
theorem generateAnimalImage_ok_char (img : BaseImage) (es : Entries)
    (hall : ∀ e ∈ es, (animalPositions e.1).isSome = true) :
    generateAnimalImage (some img) es =
      .ok { width := img.width, height := img.height,
            ops := DrawOp.drawImage img 0 0 ::
              es.map (labelOp animalPositions (findHighest es).1),
            format := "image/png" } := by
  obtain ⟨ctx', h1, h2⟩ := drawLoop_ok_of_positions animalPositions
    (findHighest es).1 es (Ctx.initial.drawImage img 0 0) hall
  rw [generateAnimalImage_ok_iff, generateAnimalImageBody_some, h1]
  show Except.ok (Encoded.mk img.width img.height ctx'.ops "image/png") = _
  have hops : (Ctx.initial.drawImage img 0 0).ops = [DrawOp.drawImage img 0 0] := rfl
  rw [h2, hops]
  rfl

/-- The brain-render analogue of `generateAnimalImage_ok_char`. -/
theorem generateBrainImage_ok_char (img : BaseImage) (es : Entries)
    (hall : ∀ e ∈ es, (brainPositions e.1).isSome = true) :
    generateBrainImage (some img) es =
      .ok { width := img.width, height := img.height,
            ops := DrawOp.drawImage img 0 0 ::
              es.map (labelOp brainPositions (findHighest es).1),
            format := "image/png" } := by
  obtain ⟨ctx', h1, h2⟩ := drawLoop_ok_of_positions brainPositions
    (findHighest es).1 es (Ctx.initial.drawImage img 0 0) hall
  rw [generateBrainImage_ok_iff, generateBrainImageBody_some, h1]
  show Except.ok (Encoded.mk img.width img.height ctx'.ops "image/png") = _
  have hops : (Ctx.initial.drawImage img 0 0).ops = [DrawOp.drawImage img 0 0] := rfl
  rw [h2, hops]
  rfl

theorem isEmph_labelOp (positions : String → Option Pos)
    (highest : Option String) (e : String × Int) :
    isEmph (labelOp positions highest e) = (some e.1 == highest) := by
  cases hb : (some e.1 == highest : Bool) <;>
    simp [labelOp, isEmph, hb, fontName, highestFontSize, normalFontSize,
      highestColor, normalColor]

theorem isNormalLabel_labelOp (positions : String → Option Pos)
    (highest : Option String) (e : String × Int) :
    isNormalLabel (labelOp positions highest e) = !(some e.1 == highest) := by
  cases hb : (some e.1 == highest : Bool) <;>
    simp [labelOp, isNormalLabel, hb, fontName, highestFontSize, normalFontSize,
      highestColor, normalColor]

theorem isEmph_drawImage (img : BaseImage) (dx dy : Int) :
    isEmph (DrawOp.drawImage img dx dy) = false := rfl

theorem isNormalLabel_drawImage (img : BaseImage) (dx dy : Int) :
    isNormalLabel (DrawOp.drawImage img dx dy) = false := rfl

/-- Style bookkeeping for a well-typed animal dataset whose maximum beats
the sentinel: the render succeeds, exactly one command is emphasized, the
other three labels are normal, and if all four values are equal the first
label (lobo) is the emphasized one. -/
theorem animal_one_emphasized (img : BaseImage) (d : AnimalData)
    (hpos : -1 < d.lobo ∨ -1 < d.aguia ∨ -1 < d.tubarao ∨ -1 < d.gato) :
    ∃ enc, generateAnimalImage (some img) d.entries = .ok enc ∧
      enc.ops.countP isEmph = 1 ∧
      enc.ops.countP isNormalLabel = 3 ∧
      enc.ops.length = 5 ∧
      (d.lobo = d.aguia → d.aguia = d.tubarao → d.tubarao = d.gato →
        (findHighest d.entries).1 = some "lobo" ∧
          ∃ op, enc.ops[1]? = some op ∧ isEmph op = true) := by
  have hall : ∀ e ∈ d.entries, (animalPositions e.1).isSome = true := by
    intro e he
    simp [AnimalData.entries] at he
    rcases he with rfl | rfl | rfl | rfl <;> rfl
  have hex : ∃ e ∈ d.entries, -1 < e.2 := by
    rcases hpos with h | h | h | h
    · exact ⟨("lobo", d.lobo), by simp [AnimalData.entries], h⟩
    · exact ⟨("aguia", d.aguia), by simp [AnimalData.entries], h⟩
    · exact ⟨("tubarao", d.tubarao), by simp [AnimalData.entries], h⟩
    · exact ⟨("gato", d.gato), by simp [AnimalData.entries], h⟩
  obtain ⟨n, hn, hmem, -⟩ := findHighest_spec d.entries hex
  have hnames : n = "lobo" ∨ n = "aguia" ∨ n = "tubarao" ∨ n = "gato" := by
    simp [AnimalData.entries, Prod.ext_iff] at hmem
    tauto
  refine ⟨_, generateAnimalImage_ok_char img d.entries hall, ?_, ?_, ?_, ?_⟩
  · rw [hn]
    rcases hnames with rfl | rfl | rfl | rfl <;>
      simp [AnimalData.entries, List.countP_cons, isEmph_labelOp,
        isEmph_drawImage]
  · rw [hn]
    rcases hnames with rfl | rfl | rfl | rfl <;>
      simp [AnimalData.entries, List.countP_cons, isNormalLabel_labelOp,
        isNormalLabel_drawImage]
  · simp [AnimalData.entries]
  · intro h1 h2 h3
    have hv : (-1 : Int) < d.lobo := by rcases hpos with h | h | h | h <;> omega
    have hfirst : (findHighest d.entries).1 = some "lobo" := by
      have hpost : ∀ e ∈ [("aguia", d.aguia), ("tubarao", d.tubarao),
          ("gato", d.gato)], e.2 ≤ d.lobo := by
        intro e he
        simp at he
        rcases he with rfl | rfl | rfl <;> simp <;> omega
      exact findHighest_first_of_max []
        [("aguia", d.aguia), ("tubarao", d.tubarao), ("gato", d.gato)]
        "lobo" d.lobo hv (by simp) hpost
    refine ⟨hfirst,
      ⟨labelOp animalPositions (findHighest d.entries).1 ("lobo", d.lobo),
        ?_, ?_⟩⟩
    · simp [AnimalData.entries]
    · rw [isEmph_labelOp, hfirst]
      rfl

/-- The brain-shape analogue of `animal_one_emphasized`; the first label in
declared order is `pensante`. -/
theorem brain_one_emphasized (img : BaseImage) (d : BrainData)
    (hpos : -1 < d.pensante ∨ -1 < d.atuante ∨ -1 < d.razao ∨ -1 < d.emocao) :
    ∃ enc, generateBrainImage (some img) d.entries = .ok enc ∧
      enc.ops.countP isEmph = 1 ∧
      enc.ops.countP isNormalLabel = 3 ∧
      enc.ops.length = 5 ∧
      (d.pensante = d.atuante → d.atuante = d.razao → d.razao = d.emocao →
        (findHighest d.entries).1 = some "pensante" ∧
          ∃ op, enc.ops[1]? = some op ∧ isEmph op = true) := by
  have hall : ∀ e ∈ d.entries, (brainPositions e.1).isSome = true := by
    intro e he
    simp [BrainData.entries] at he
    rcases he with rfl | rfl | rfl | rfl <;> rfl
  have hex : ∃ e ∈ d.entries, -1 < e.2 := by
    rcases hpos with h | h | h | h
    · exact ⟨("pensante", d.pensante), by simp [BrainData.entries], h⟩
    · exact ⟨("atuante", d.atuante), by simp [BrainData.entries], h⟩
    · exact ⟨("razao", d.razao), by simp [BrainData.entries], h⟩
    · exact ⟨("emocao", d.emocao), by simp [BrainData.entries], h⟩
  obtain ⟨n, hn, hmem, -⟩ := findHighest_spec d.entries hex
  have hnames : n = "pensante" ∨ n = "atuante" ∨ n = "razao" ∨
      n = "emocao" := by
    simp [BrainData.entries, Prod.ext_iff] at hmem
    tauto
  refine ⟨_, generateBrainImage_ok_char img d.entries hall, ?_, ?_, ?_, ?_⟩
  · rw [hn]
    rcases hnames with rfl | rfl | rfl | rfl <;>
      simp [BrainData.entries, List.countP_cons, isEmph_labelOp,
        isEmph_drawImage]
  · rw [hn]
    rcases hnames with rfl | rfl | rfl | rfl <;>
      simp [BrainData.entries, List.countP_cons, isNormalLabel_labelOp,
        isNormalLabel_drawImage]
  · simp [BrainData.entries]
  · intro h1 h2 h3
    have hv : (-1 : Int) < d.pensante := by
      rcases hpos with h | h | h | h <;> omega
    have hfirst : (findHighest d.entries).1 = some "pensante" := by
      have hpost : ∀ e ∈ [("atuante", d.atuante), ("razao", d.razao),
          ("emocao", d.emocao)], e.2 ≤ d.pensante := by
        intro e he
        simp at he
        rcases he with rfl | rfl | rfl <;> simp <;> omega
      exact findHighest_first_of_max []
        [("atuante", d.atuante), ("razao", d.razao), ("emocao", d.emocao)]
        "pensante" d.pensante hv (by simp) hpost
    refine ⟨hfirst,
      ⟨labelOp brainPositions (findHighest d.entries).1
        ("pensante", d.pensante), ?_, ?_⟩⟩
    · simp [BrainData.entries]
    · rw [isEmph_labelOp, hfirst]
      rfl

/-! Claim theorems. -/

/-- C1, counterexample: on the dataset mapping every animal name to the
sentinel value −1, the label-selection loop returns no name at all
(`highestAnimalName` stays `null`), so the claim that it always returns a
name present in a non-empty set is false as stated. -/
theorem C1_counterexample_all_sentinel :
    (findHighest [("lobo", -1), ("aguia", -1), ("tubarao", -1),
      ("gato", -1)]).1 = none := rfl

/-- C1, amended: for every entry list with at least one value above the −1
sentinel (in particular every non-empty set of percentages in 0–100), the
label-selection loop returns a name present in the set whose value is at
least every other value in the set. -/
theorem C1_selectMax_sound (es : Entries) (h : ∃ e ∈ es, -1 < e.2) :
    ∃ n, (findHighest es).1 = some n ∧ (n, (findHighest es).2) ∈ es ∧
      ∀ e ∈ es, e.2 ≤ (findHighest es).2 :=
  findHighest_spec es h

/-- C1, witness: the amended theorem applied to the concrete brain dataset
of scenario B. -/
theorem C1_witness :
    ∃ n, (findHighest [("pensante", 20), ("atuante", 30), ("razao", 25),
        ("emocao", 25)]).1 = some n ∧
      (n, (findHighest [("pensante", 20), ("atuante", 30), ("razao", 25),
        ("emocao", 25)]).2) ∈
        [("pensante", 20), ("atuante", 30), ("razao", 25), ("emocao", 25)] ∧
      ∀ e ∈ [(("pensante" : String), (20 : Int)), ("atuante", 30),
        ("razao", 25), ("emocao", 25)],
        e.2 ≤ (findHighest [("pensante", 20), ("atuante", 30), ("razao", 25),
          ("emocao", 25)]).2 :=
  C1_selectMax_sound _ (by decide)

/-- C2, counterexample: a dataset missing the required key `gato` does not
fail — the animal render succeeds and produces an image (three labels and
the blit), so "InputShapeError, no image produced" is false on the code. -/
theorem C2_counterexample_missing_gato :
    (generateAnimalImage (some ⟨1080, 1350⟩)
      [("lobo", 40), ("aguia", 55), ("tubarao", 55)]).isOk = true := rfl

/-- C2, amended: a dataset missing `gato` (or any dataset all of whose
present names have positions) renders successfully, drawing exactly one
label per present entry plus the base-image blit; the code performs no
per-key validation and raises no shape error for missing names. -/
theorem C2_missing_name_renders (img : BaseImage) (es : Entries)
    (hall : ∀ e ∈ es, (animalPositions e.1).isSome = true) :
    ∃ enc, generateAnimalImage (some img) es = .ok enc ∧
      enc.ops.length = es.length + 1 := by
  refine ⟨_, generateAnimalImage_ok_char img es hall, ?_⟩
  simp

/-- C2, witness: the amended theorem applied to the concrete dataset of
scenario C with `gato` absent. -/
theorem C2_witness :
    ∃ enc, generateAnimalImage (some ⟨1080, 1350⟩)
        [("lobo", 40), ("aguia", 55), ("tubarao", 55)] = .ok enc ∧
      enc.ops.length = 3 + 1 := by
  exact C2_missing_name_renders ⟨1080, 1350⟩ _ (by decide)

/-- C3, counterexample: on the brain dataset with every value −1, all
entries are tied at the maximum value, yet the selector picks nothing —
not the first name — so the tie-break claim is false as stated at the
sentinel. -/
theorem C3_counterexample_tied_at_sentinel :
    (findHighest [("pensante", -1), ("atuante", -1), ("razao", -1),
      ("emocao", -1)]).1 = none := rfl

/-- C3, amended: the selector replaces the running maximum only on strictly
greater values, so whenever the maximum value exceeds the −1 sentinel, the
first entry in iteration order attaining it is selected, regardless of
later ties. -/
theorem C3_first_of_tied_max (pre post : Entries) (n : String) (v : Int)
    (hv : -1 < v) (hpre : ∀ e ∈ pre, e.2 < v) (hpost : ∀ e ∈ post, e.2 ≤ v) :
    (findHighest (pre ++ (n, v) :: post)).1 = some n :=
  findHighest_first_of_max pre post n v hv hpre hpost

/-- C3, witness: scenario A — `aguia` and `tubarao` tie at 55 and the
earlier `aguia` is selected. -/
theorem C3_witness :
    (findHighest [("lobo", 40), ("aguia", 55), ("tubarao", 55),
      ("gato", 10)]).1 = some "aguia" := by
  exact C3_first_of_tied_max [("lobo", 40)] [("tubarao", 55), ("gato", 10)]
    "aguia" 55 (by decide) (by decide) (by decide)

/-- C9: if every value in the dataset is at most −1 (the sentinel), the
max-finding loop selects no name, and consequently every command of a
successful animal render is either the base-image blit or a label in the
normal style — nothing is emphasized. -/
theorem C9_all_sentinel_no_emphasis (img : BaseImage) (es : Entries)
    (h : ∀ e ∈ es, e.2 ≤ -1) :
    (findHighest es).1 = none ∧
      ∀ enc, generateAnimalImage (some img) es = .ok enc →
        ∀ op ∈ enc.ops, isEmph op = false ∧
          (op = DrawOp.drawImage img 0 0 ∨ isNormalLabel op = true) := by
  have hnone : (findHighest es).1 = none := by
    rw [findHighest_none_of_le_sentinel es h]
  refine ⟨hnone, ?_⟩
  intro enc henc op hop
  rw [generateAnimalImage_ok_iff, generateAnimalImageBody_some] at henc
  cases hd : drawLoop animalPositions (findHighest es).1
      (Ctx.initial.drawImage img 0 0) es with
  | error e => rw [hd] at henc; cases henc
  | ok ctx' =>
    rw [hd] at henc
    have henc2 : toDataURL ⟨img.width, img.height⟩ ctx' = enc := by
      injection henc
    obtain ⟨l, hl, hlabel⟩ := drawLoop_ok_ops animalPositions
      (findHighest es).1 es _ _ hd
    have hops : enc.ops = DrawOp.drawImage img 0 0 :: l := by
      rw [← henc2]
      exact hl
    rw [hops] at hop
    rcases List.mem_cons.mp hop with rfl | hmem
    · exact ⟨rfl, Or.inl rfl⟩
    · obtain ⟨e, _, rfl⟩ := hlabel op hmem
      rw [isEmph_labelOp, isNormalLabel_labelOp, hnone]
      exact ⟨rfl, Or.inr rfl⟩

/-- C9, witness: the theorem applied to a concrete all-negative dataset. -/
theorem C9_witness :
    (findHighest [("lobo", -3), ("aguia", -1), ("tubarao", -5),
      ("gato", -3)]).1 = none :=
  (C9_all_sentinel_no_emphasis ⟨1080, 1350⟩ _ (by decide)).1

/-- C10: a dataset containing any key outside the four known names of its
shape makes the render fail — the position lookup yields nothing and the
draw step throws — with the error wrapped in a message identifying which
render (animal or brain) failed, and no image is returned. -/
theorem C10_unknown_key_fails :
    (∀ (img : BaseImage) (es : Entries),
      (∃ e ∈ es, animalPositions e.1 = none) →
        generateAnimalImage (some img) es =
          .error ("Error during animal image processing: " ++
            destructureFail)) ∧
    (∀ (img : BaseImage) (es : Entries),
      (∃ e ∈ es, brainPositions e.1 = none) →
        generateBrainImage (some img) es =
          .error ("Error during brain image processing: " ++
            destructureFail)) := by
  constructor
  · intro img es h
    apply generateAnimalImage_error_wrap
    rw [generateAnimalImageBody_some,
      drawLoop_error_of_missing animalPositions (findHighest es).1 es _ h]
  · intro img es h
    apply generateBrainImage_error_wrap
    rw [generateBrainImageBody_some,
      drawLoop_error_of_missing brainPositions (findHighest es).1 es _ h]

/-- C10, witness: an animal dataset with the unknown extra key `leao`. -/
theorem C10_witness :
    generateAnimalImage (some ⟨1080, 1350⟩)
        [("lobo", 40), ("aguia", 55), ("tubarao", 55), ("gato", 10),
          ("leao", 99)] =
      .error ("Error during animal image processing: " ++ destructureFail) :=
  C10_unknown_key_fails.1 ⟨1080, 1350⟩ _ (by decide)

/-- C4: the composite handler joins both renders all-or-nothing — when
exactly one render fails (either side), the handler returns the failure
response carrying that error, and no image is returned for either
dataset. -/
theorem C4_composite_all_or_nothing (animalBase brainBase : Option BaseImage)
    (d d' : Entries) (e : String)
    (h : (generateAnimalImage animalBase d = .error e ∧
            (generateBrainImage brainBase d').isOk = true) ∨
         ((generateAnimalImage animalBase d).isOk = true ∧
            generateBrainImage brainBase d' = .error e)) :
    handler animalBase brainBase ⟨"POST", some d, some d'⟩ = .failure e := by
  rcases h with ⟨ha, hb⟩ | ⟨ha, hb⟩
  · cases hx : generateBrainImage brainBase d' with
    | error e2 => rw [hx] at hb; simp [Except.isOk, Except.toBool] at hb
    | ok b => simp [handler, ha, hx]
  · cases hx : generateAnimalImage animalBase d with
    | error e2 => rw [hx] at ha; simp [Except.isOk, Except.toBool] at ha
    | ok a => simp [handler, hb, hx]

/-- C4, witness: a brain-side decode failure while the animal render
succeeds — the handler discards the successful animal image and fails. -/
theorem C4_witness :
    handler (some ⟨1080, 1350⟩) none
        ⟨"POST",
          some [("lobo", 40), ("aguia", 55), ("tubarao", 55), ("gato", 10)],
          some [("pensante", 20), ("atuante", 30), ("razao", 25),
            ("emocao", 25)]⟩ =
      .failure ("Error during brain image processing: " ++ imageLoadFail) := by
  exact C4_composite_all_or_nothing (some ⟨1080, 1350⟩) none _ _ _
    (Or.inr ⟨rfl, rfl⟩)

/-- C6: rendering is deterministic — the embedded render path is a pure
function of the decoded base image and the dataset (the source path reads
no clock, randomness, or cross-request state), so two calls with the same
inputs produce identical encoded output. -/
theorem C6_render_deterministic :
    (∀ (b : Option BaseImage) (d : Entries),
      generateAnimalImage b d = generateAnimalImage b d) ∧
    (∀ (b : Option BaseImage) (d : Entries),
      generateBrainImage b d = generateBrainImage b d) :=
  ⟨fun _ _ => rfl, fun _ _ => rfl⟩

/-- C7: for every base image and every successful render (either shape),
the output surface has exactly the dimensions of the base image, and the
first drawing command is the full blit of the base image at (0, 0). -/
theorem C7_dimensions_and_blit :
    (∀ (img : BaseImage) (es : Entries) (enc : Encoded),
      generateAnimalImage (some img) es = .ok enc →
        enc.width = img.width ∧ enc.height = img.height ∧
          enc.ops.head? = some (DrawOp.drawImage img 0 0)) ∧
    (∀ (img : BaseImage) (es : Entries) (enc : Encoded),
      generateBrainImage (some img) es = .ok enc →
        enc.width = img.width ∧ enc.height = img.height ∧
          enc.ops.head? = some (DrawOp.drawImage img 0 0)) := by
  constructor
  · intro img es enc h
    rw [generateAnimalImage_ok_iff, generateAnimalImageBody_some] at h
    cases hd : drawLoop animalPositions (findHighest es).1
        (Ctx.initial.drawImage img 0 0) es with
    | error e => rw [hd] at h; cases h
    | ok ctx' =>
      rw [hd] at h
      have henc : toDataURL ⟨img.width, img.height⟩ ctx' = enc := by
        injection h
      obtain ⟨l, hl, -⟩ := drawLoop_ok_ops animalPositions
        (findHighest es).1 es _ _ hd
      have hops : enc.ops = DrawOp.drawImage img 0 0 :: l := by
        rw [← henc]
        exact hl
      refine ⟨by rw [← henc]; rfl, by rw [← henc]; rfl, ?_⟩
      rw [hops]
      rfl
  · intro img es enc h
    rw [generateBrainImage_ok_iff, generateBrainImageBody_some] at h
    cases hd : drawLoop brainPositions (findHighest es).1
        (Ctx.initial.drawImage img 0 0) es with
    | error e => rw [hd] at h; cases h
    | ok ctx' =>
      rw [hd] at h
      have henc : toDataURL ⟨img.width, img.height⟩ ctx' = enc := by
        injection h
      obtain ⟨l, hl, -⟩ := drawLoop_ok_ops brainPositions
        (findHighest es).1 es _ _ hd
      have hops : enc.ops = DrawOp.drawImage img 0 0 :: l := by
        rw [← henc]
        exact hl
      refine ⟨by rw [← henc]; rfl, by rw [← henc]; rfl, ?_⟩
      rw [hops]
      rfl

/-- C7, witness: the concrete scenario-A render on a 1080 × 1350 base
image keeps the dimensions and blits the base image first. -/
theorem C7_witness :
    encScenarioA.width = 1080 ∧ encScenarioA.height = 1350 ∧
      encScenarioA.ops.head? = some (DrawOp.drawImage ⟨1080, 1350⟩ 0 0) := by
  exact C7_dimensions_and_blit.1 ⟨1080, 1350⟩
    [("lobo", 40), ("aguia", 55), ("tubarao", 55), ("gato", 10)]
    encScenarioA rfl

/-- C8: every label is drawn with the drop shadow rgba(0, 0, 0, 0.8),
blur 10 and zero offsets — the recorded fill command carries exactly that
shadow state — and immediately afterwards the context is reset to carry no
shadow (transparent color, zero blur, zero offsets). -/
theorem C8_shadow_applied_and_reset (ctx : Ctx) (text : String) (x y : Int)
    (font fillStyle textAlign textBaseline : String) :
    (drawTextWithShadow ctx text x y font fillStyle textAlign
        textBaseline).ops =
      ctx.ops ++ [DrawOp.fillText text x y font fillStyle textAlign
        textBaseline "rgba(0, 0, 0, 0.8)" 10 0 0] ∧
    (drawTextWithShadow ctx text x y font fillStyle textAlign
      textBaseline).shadowColor = "transparent" ∧
    (drawTextWithShadow ctx text x y font fillStyle textAlign
      textBaseline).shadowBlur = 0 ∧
    (drawTextWithShadow ctx text x y font fillStyle textAlign
      textBaseline).shadowOffsetX = 0 ∧
    (drawTextWithShadow ctx text x y font fillStyle textAlign
      textBaseline).shadowOffsetY = 0 :=
  ⟨rfl, rfl, rfl, rfl, rfl⟩

/-- C5, counterexample: on the animal dataset with every value −2 (all
four required names present), no label at all is drawn in the emphasized
style — the count of emphasized commands is 0, not exactly one. -/
theorem C5_counterexample_all_sentinel :
    Except.map (fun enc => enc.ops.countP isEmph)
      (generateAnimalImage (some ⟨1080, 1350⟩)
        (AnimalData.entries ⟨-2, -2, -2, -2⟩)) = .ok 0 := rfl

/-- C5, amended: for every dataset with all four required names present
and at least one value above the −1 sentinel (in particular any dataset of
percentages), exactly one drawn label uses the emphasized style (font size
40, yellow) and the other three the normal style (font size 36, white);
when all four values are equal, the first name in declared order is the
emphasized one. -/
theorem C5_exactly_one_emphasized :
    (∀ (img : BaseImage) (d : AnimalData),
      (-1 < d.lobo ∨ -1 < d.aguia ∨ -1 < d.tubarao ∨ -1 < d.gato) →
      ∃ enc, generateAnimalImage (some img) d.entries = .ok enc ∧
        enc.ops.countP isEmph = 1 ∧
        enc.ops.countP isNormalLabel = 3 ∧
        enc.ops.length = 5 ∧
        (d.lobo = d.aguia → d.aguia = d.tubarao → d.tubarao = d.gato →
          (findHighest d.entries).1 = some "lobo" ∧
            ∃ op, enc.ops[1]? = some op ∧ isEmph op = true)) ∧
    (∀ (img : BaseImage) (d : BrainData),
      (-1 < d.pensante ∨ -1 < d.atuante ∨ -1 < d.razao ∨ -1 < d.emocao) →
      ∃ enc, generateBrainImage (some img) d.entries = .ok enc ∧
        enc.ops.countP isEmph = 1 ∧
        enc.ops.countP isNormalLabel = 3 ∧
        enc.ops.length = 5 ∧
        (d.pensante = d.atuante → d.atuante = d.razao → d.razao = d.emocao →
          (findHighest d.entries).1 = some "pensante" ∧
            ∃ op, enc.ops[1]? = some op ∧ isEmph op = true)) :=
  ⟨animal_one_emphasized, brain_one_emphasized⟩

/-- C5, witness: the amended theorem applied to the concrete scenario-A
animal dataset on a 1080 × 1350 base image. -/
theorem C5_witness :
    ∃ enc, generateAnimalImage (some ⟨1080, 1350⟩)
        (AnimalData.entries ⟨40, 55, 55, 10⟩) = .ok enc ∧
      enc.ops.countP isEmph = 1 ∧
      enc.ops.countP isNormalLabel = 3 ∧
      enc.ops.length = 5 ∧
      ((40 : Int) = 55 → (55 : Int) = 55 → (55 : Int) = 10 →
        (findHighest (AnimalData.entries ⟨40, 55, 55, 10⟩)).1 = some "lobo" ∧
          ∃ op, enc.ops[1]? = some op ∧ isEmph op = true) := by
  exact C5_exactly_one_emphasized.1 ⟨1080, 1350⟩ ⟨40, 55, 55, 10⟩ (by decide)

end GenerateImages
